import Mathlib

/-!
Shallow embedding of Inkwell's client-side controllers.

This file models, in Lean, the client-side logic of the Inkwell
repository: the debounced auto-save controller of the Prompt editor
(`frontend/src/components/PromptForm.js`, second revision), the
whiteboard auto-save / sync-poll controller
(`frontend/src/components/ProjectWhiteboard.js`), the reorderable
prompt list (`frontend/src/components/PromptsSidebar.js`) and the
404-handling prompt fetch of `frontend/src/App.js`.

Conventions of the embedding:
* JavaScript strings are Lean `String`s (all inputs of interest are
  ASCII, so UTF-16 length and `String.length` agree).
* Timers are modelled explicitly: a pending `setTimeout` is an
  `Option` holding its absolute deadline (in milliseconds) together
  with the value captured by its callback closure.  Discrete events
  carry the absolute time at which they happen; a helper fires every
  timer whose deadline has passed before the next event is processed.
* Network calls are modelled by appending the request payload to a
  `saves`/`requests` log field; whether the server accepted the call
  is an explicit `ok : Bool` parameter (the code has no retry logic,
  so a single outcome per request suffices).
* React's `useEffect` cascades are folded into the event handlers:
  each event function performs the state update of the handler plus
  the synchronously observable effect re-runs it provokes (clearing
  or re-arming the debounce timer), exactly as traced from the hooks
  in the source.
-/

/-- ASCII whitespace recognised by the JavaScript `\s` class and by
`String.prototype.trim` (the Unicode spaces are not modelled; all
contents of interest are ASCII). -/
def jsIsSpace (c : Char) : Bool :=
  c = ' ' || c = '\t' || c = '\n' || c = '\r' || c = '\x0b' || c = '\x0c'

/-- `String.prototype.trim` on character lists: drop whitespace from
both ends. -/
def trimChars (l : List Char) : List Char :=
  ((l.dropWhile jsIsSpace).reverse.dropWhile jsIsSpace).reverse

/-- `content.trim()` from the JavaScript sources. -/
def jsTrim (s : String) : String := String.mk (trimChars s.toList)

/-- Auxiliary splitter: `splitWsAux l acc` scans `l`, accumulating the
current word in `acc` (reversed); whitespace runs separate words. -/
def splitWsAux : List Char → List Char → List (List Char)
  | [], acc => if acc = [] then [] else [acc.reverse]
  | c :: cs, acc =>
    if jsIsSpace c then
      if acc = [] then splitWsAux cs []
      else acc.reverse :: splitWsAux cs []
    else splitWsAux cs (c :: acc)

/-- `str.split(/\s+/)` restricted to its use in the sources (on a
trimmed string it returns the whitespace-delimited words). -/
def splitWs (l : List Char) : List (List Char) := splitWsAux l []

/-- The character class kept by `replace(/[^\w\s-]/g, '')` in
`generateAutoName`: word characters (letters, digits, underscore),
whitespace, and hyphen. -/
def keepWordChar (c : Char) : Bool :=
  c.isAlphanum || c = '_' || jsIsSpace c || c = '-'

/-- `generateAutoName` from `PromptForm.js` (lines 341-358): first six
whitespace-delimited words of the trimmed content, joined by single
spaces, with every character outside `[\w\s-]` removed, trimmed,
truncated to 47 characters plus `"..."` when longer than 50, and
`"Untitled Prompt"` when the cleaned result is empty. -/
def generateAutoName (content : String) : String :=
  if jsTrim content = "" then ""
  else
    let words := String.intercalate " "
      ((((splitWs (jsTrim content).toList).take 6).map String.mk))
    let cleaned := jsTrim (String.mk (words.toList.filter keepWordChar))
    if cleaned.length > 50 then String.mk (cleaned.toList.take 47) ++ "..."
    else if cleaned = "" then "Untitled Prompt" else cleaned

/-- Modelled from the spec: the name-generation rule exactly as the
claim words it — "the first 6 whitespace-delimited words of content
with characters outside letters/digits/whitespace/hyphen stripped,
truncated to 50 characters with a trailing ellipsis only if longer
than 50, and a fixed placeholder if the cleaned result is empty".
Note it keeps neither underscores nor performs a final trim, unlike
the code. -/
def specAutoNameRule (content : String) : String :=
  let cleaned := String.mk
    ((String.intercalate " " (((splitWs content.toList).take 6).map String.mk)).toList.filter
      (fun c => c.isAlphanum || jsIsSpace c || c = '-'))
  if cleaned.length > 50 then String.mk (cleaned.toList.take 47) ++ "..."
  else if cleaned = "" then "Untitled Prompt" else cleaned

/-- Modelled from the spec, as amended to match the code: same rule as
`specAutoNameRule` but keeping underscores (JavaScript `\w`) and
trimming the cleaned result. -/
def specAutoNameAmended (content : String) : String :=
  let cleaned := jsTrim (String.mk
    ((String.intercalate " " (((splitWs content.toList).take 6).map String.mk)).toList.filter
      keepWordChar))
  if cleaned.length > 50 then String.mk (cleaned.toList.take 47) ++ "..."
  else if cleaned = "" then "Untitled Prompt" else cleaned

/-- JavaScript `a || b` on strings as used for field defaults: the
empty string (and a missing field, which we encode as `""`) is falsy
and replaced by the default. -/
def jsOr (s d : String) : String := if s = "" then d else s

/-- The editable field-set of a Prompt, as held in `formData`. -/
structure FormData where
  name : String
  status : String
  content : String
  project_id : String
deriving DecidableEq, Repr

/-- `hasFormChanged` from `PromptForm.js` (lines 388-403).  `initial`
is `initialDataRef.current` (`none` for a new, unsaved prompt). -/
def hasFormChanged (initial : Option FormData) (newData : FormData) : Bool :=
  match initial with
  | none => jsTrim newData.name ≠ "" || jsTrim newData.content ≠ ""
  | some i =>
    newData.name ≠ jsOr i.name "" ||
    newData.status ≠ jsOr i.status "draft" ||
    newData.content ≠ jsOr i.content "" ||
    newData.project_id ≠ jsOr i.project_id ""

/-! ## Debounced auto-save controller of the Prompt editor (`PromptForm.js`) -/

/-- State of a mounted `PromptForm` bound to `onAutoSave`, together
with the log of issued save requests.

* `boundId` is the id of the `initialData` prop (`none` while the
  form edits a new, unsaved prompt).
* `snapshot` models `initialDataRef.current`: `none` for a new
  prompt, otherwise the stored id (if any) and field values.  The
  id becomes `none` when the ref is rebuilt by a spread of a saved
  payload over `null`.
* `timer` models the pending `setTimeout` of the debounced auto-save
  effect: absolute deadline and the `formData` captured by the
  callback.
* `inflight` is the payload of an `onAutoSave` call that has been
  issued but whose promise has not settled yet.
* `saves` records every issued `onAutoSave` request as
  (target prompt id, payload); a new-prompt save is logged with
  target id `0`. -/
structure PFState where
  boundId : Option Nat
  formData : FormData
  snapshot : Option (Option Nat × FormData)
  hasUnsavedChanges : Bool
  timer : Option (Nat × FormData)
  inflight : Option FormData
  saves : List (Nat × FormData)
deriving DecidableEq, Repr

/-- The field values of the snapshot as seen by `hasFormChanged`. -/
def PFState.snapFields (s : PFState) : Option FormData := s.snapshot.map Prod.snd

/-- `triggerAutoSave` from `PromptForm.js` (lines 361-385), up to the
point where the request is on the wire: guard for empty new prompts,
auto-generation of an empty name from the content (which also writes
the generated name back into `formData`, re-running the debounce
effect), then the `onAutoSave` call.  `t` is the current time, used
for the timer the effect re-run may arm. -/
def pfTriggerAutoSaveStart (t : Nat) (s : PFState) (payload : FormData) : PFState :=
  if s.boundId = none && jsTrim payload.content = "" then s
  else
    let autoname := jsTrim payload.name = "" && jsTrim payload.content ≠ ""
    let payload' :=
      if autoname then { payload with name := generateAutoName payload.content } else payload
    let s' := { s with
      saves := s.saves ++ [(s.boundId.getD 0, payload')],
      inflight := some payload' }
    if autoname then
      let fd' := { s.formData with name := payload'.name }
      if hasFormChanged s.snapFields fd' then
        { s' with formData := fd', hasUnsavedChanges := true, timer := some (t + 2000, fd') }
      else
        { s' with formData := fd', hasUnsavedChanges := false, timer := none }
    else s'

/-- Settlement of an issued `onAutoSave` call: on success the
continuation of `triggerAutoSave` sets `hasUnsavedChanges := false`
and merges the saved payload into `initialDataRef.current` (spreading
over whatever the ref holds at completion time — there is no check
that the form is still bound to the entity the request was for); on
failure it only logs the error. -/
def pfSaveComplete (ok : Bool) (s : PFState) : PFState :=
  match s.inflight with
  | none => s
  | some payload =>
    if ok then
      { s with
        hasUnsavedChanges := false,
        snapshot := match s.snapshot with
          | some (i, _) => some (i, payload)
          | none => some (none, payload),
        inflight := none }
    else { s with inflight := none }

/-- An edit event (`handleChange` setting `formData`, lines 466-472)
together with the debounced auto-save effect it re-runs (lines
405-430): the previous timeout is cleared; if the data differs from
the snapshot a new 2000 ms timeout capturing the new `formData` is
armed and `hasUnsavedChanges` is set, otherwise nothing is armed. -/
def pfEdit (t : Nat) (fd : FormData) (s : PFState) : PFState :=
  if hasFormChanged s.snapFields fd then
    { s with formData := fd, hasUnsavedChanges := true, timer := some (t + 2000, fd) }
  else
    { s with formData := fd, hasUnsavedChanges := false, timer := none }

/-- Expiry of the debounce timeout: runs `triggerAutoSave` on the
captured `formData` if the deadline has passed. -/
def pfTimerFire (t : Nat) (s : PFState) : PFState :=
  match s.timer with
  | some (d, payload) =>
    if d ≤ t then pfTriggerAutoSaveStart t { s with timer := none } payload else s
  | none => s

/-- The Cmd+S / Ctrl+S handler (lines 432-464) for a form bound to an
existing prompt: it calls `triggerAutoSave(formData)` directly and
does not touch the pending debounce timeout.  (The new-prompt branch
submits through `onSubmit` instead and is outside this model.) -/
def pfCmdS (t : Nat) (s : PFState) : PFState :=
  match s.boundId with
  | some _ => pfTriggerAutoSaveStart t s s.formData
  | none => s

/-- Switching the bound entity: the `initialData` effect (lines
310-338) resets `formData` and the snapshot from the new prompt's
server state, clears `hasUnsavedChanges`, and clears any pending
auto-save timeout (the debounce effect re-runs against the fresh
snapshot and arms nothing).  An in-flight request is untouched. -/
def pfSwitch (idB : Nat) (init : FormData) (s : PFState) : PFState :=
  { s with
    boundId := some idB,
    formData :=
      { name := jsOr init.name "",
        status := jsOr init.status "draft",
        content := jsOr init.content "",
        project_id := jsOr init.project_id "" },
    hasUnsavedChanges := false,
    snapshot := some (some idB, init),
    timer := none }

/-- Events of the Prompt editor, each carrying its absolute time where
the handler uses the clock. -/
inductive PFEvent where
  | edit (t : Nat) (fd : FormData)
  | timerFire (t : Nat)
  | cmdS (t : Nat)
  | saveComplete (ok : Bool)
  | switchTo (idB : Nat) (init : FormData)
deriving Repr

/-- One event step of the Prompt editor. -/
def pfStep (s : PFState) : PFEvent → PFState
  | .edit t fd => pfEdit t fd s
  | .timerFire t => pfTimerFire t s
  | .cmdS t => pfCmdS t s
  | .saveComplete ok => pfSaveComplete ok s
  | .switchTo idB init => pfSwitch idB init s

/-- Run a list of events. -/
def pfRun (s : PFState) (es : List PFEvent) : PFState := es.foldl pfStep s

/-- Run a sequence of timed edit events on the prompt editor: before
each edit, a debounce timeout that has come due fires; then the edit
is applied. -/
def pfRunEdits (s : PFState) : List (Nat × FormData) → PFState
  | [] => s
  | (t, fd) :: rest => pfRunEdits (pfEdit t fd (pfTimerFire t s)) rest

/-! ## Whiteboard auto-save and sync poller (`ProjectWhiteboard.js`) -/

/-- State of a mounted `ProjectWhiteboard`.

* `autoSaveTimer` models the pending auto-save `setTimeout`
  (deadline, content captured by the callback);
* `typingTimer` the pending 1000 ms `setIsTyping(false)` timeout;
* `saves` logs every `PUT /api/projects/:id/whiteboard` payload
  issued, in order. -/
structure WBState where
  projectSelected : Bool
  content : String
  lastSavedContent : String
  hasUnsavedChanges : Bool
  isTyping : Bool
  autoSaveTimer : Option (Nat × String)
  typingTimer : Option Nat
  saves : List String
deriving DecidableEq, Repr

/-- `triggerAutoSave` from `ProjectWhiteboard.js` (lines 40-58): a
no-op without a selected project or when the content equals the last
saved content; otherwise the PUT is issued, and on success
`lastSavedContent` is updated and `hasUnsavedChanges` cleared (on
failure the error is surfaced and the state left dirty). -/
def wbTriggerAutoSave (ok : Bool) (s : WBState) (content : String) : WBState :=
  if !s.projectSelected || content = s.lastSavedContent then s
  else if ok then
    { s with saves := s.saves ++ [content],
             lastSavedContent := content,
             hasUnsavedChanges := false }
  else
    { s with saves := s.saves ++ [content] }

/-- `handleManualSave` from `ProjectWhiteboard.js` (lines 61-72): with
a project selected, cancel any pending auto-save timeout and save the
current content immediately. -/
def wbHandleManualSave (ok : Bool) (s : WBState) : WBState :=
  if !s.projectSelected then s
  else wbTriggerAutoSave ok { s with autoSaveTimer := none } s.content

/-- `handleContentChange` from `ProjectWhiteboard.js` (lines 112-135):
set the content, recompute `hasUnsavedChanges` against
`lastSavedContent`, mark typing, and replace both timeouts (typing
off after 1000 ms, auto-save of the new content after 2000 ms). -/
def wbHandleContentChange (t : Nat) (s : WBState) (newContent : String) : WBState :=
  { s with
    content := newContent,
    hasUnsavedChanges := newContent != s.lastSavedContent,
    isTyping := true,
    typingTimer := some (t + 1000),
    autoSaveTimer := some (t + 2000, newContent) }

/-- Fire the typing timeout if due (sets `isTyping` back to false). -/
def wbFireTyping (t : Nat) (s : WBState) : WBState :=
  match s.typingTimer with
  | some d => if d ≤ t then { s with isTyping := false, typingTimer := none } else s
  | none => s

/-- Fire, at time `t`, every pending timeout whose deadline has
passed.  The typing timeout always has the earlier deadline, so it is
processed first; a due auto-save timeout runs `triggerAutoSave` on
its captured content. -/
def wbFireDue (ok : Bool) (t : Nat) (s : WBState) : WBState :=
  let s1 := wbFireTyping t s
  match s1.autoSaveTimer with
  | some (d, c) =>
    if d ≤ t then wbTriggerAutoSave ok { s1 with autoSaveTimer := none } c else s1
  | none => s1

/-- Run a sequence of timed edit events: before each edit, any timer
that has come due fires; then the edit is applied. -/
def wbRunEdits (ok : Bool) (s : WBState) : List (Nat × String) → WBState
  | [] => s
  | (t, c) :: rest => wbRunEdits ok (wbHandleContentChange t (wbFireDue ok t s) c) rest

/-- `checkForUpdates` from `ProjectWhiteboard.js` (lines 94-109): the
body of one sync poll, given the whiteboard value `serverContent`
fetched from the server.  Nothing is fetched or applied without a
selected project or while `isTyping`; the fetched value is applied
(and the last-applied tracker updated) only when it differs from
`lastSavedContent` and there are no unsaved local changes. -/
def wbCheckForUpdates (s : WBState) (serverContent : String) : WBState :=
  if !s.projectSelected || s.isTyping then s
  else if serverContent != s.lastSavedContent && !s.hasUnsavedChanges then
    { s with content := serverContent, lastSavedContent := serverContent }
  else s

/-- Strict monotonicity with gaps under 2000 ms: each listed edit
(whiteboard content or prompt field-set) happens after time `t` and
less than 2000 ms after its predecessor. -/
def stepOk {α : Type} : Nat → List (Nat × α) → Bool
  | _, [] => true
  | t, (t2, _) :: rest => (decide (t < t2) && decide (t2 < t + 2000)) && stepOk t2 rest

/-! ## Reorderable prompt list (`PromptsSidebar.js`) -/

/-- `arrayMove` of `@dnd-kit/sortable` as used by `handleDragEnd`
(both indices are positions of rendered items, hence in range):
remove the element at `i` and re-insert it at `j`. -/
def arrayMove (l : List Nat) (i j : Nat) : List Nat :=
  match l.get? i with
  | some x => (l.eraseIdx i).insertIdx j x
  | none => l

/-- State of the sidebar list: the optimistic local mirror
(`localPrompts`, holding prompt ids in order), the server-confirmed
order last received through the `prompts` prop, the log of reorder
requests issued (each the full ordered id list), the number of errors
logged, and the number of parent refresh notifications
(`onPromptsReordered`). -/
structure SBState where
  localPrompts : List Nat
  prompts : List Nat
  requests : List (List Nat)
  errorsLogged : Nat
  refreshes : Nat
deriving DecidableEq, Repr

/-- `handleDragEnd` from `PromptsSidebar.js` (lines 120-153): with a
drop target distinct from the dragged item, move the dragged item to
the target's position in the local mirror, issue one reorder request
with the full new id order, and on success notify the parent, on
failure log the error and revert the mirror to the `prompts` prop.
`active`/`over` are the dragged item's id and the drop target's id
(`none` when the drag ends without a valid target). -/
def handleDragEnd (ok : Bool) (s : SBState) (active over : Option Nat) : SBState :=
  match active, over with
  | some a, some o =>
    if a ≠ o then
      let oldIndex := s.localPrompts.indexOf a
      let newIndex := s.localPrompts.indexOf o
      let newPrompts := arrayMove s.localPrompts oldIndex newIndex
      if ok then
        { s with localPrompts := newPrompts,
                 requests := s.requests ++ [newPrompts],
                 refreshes := s.refreshes + 1 }
      else
        { s with localPrompts := s.prompts,
                 requests := s.requests ++ [newPrompts],
                 errorsLogged := s.errorsLogged + 1 }
    else s
  | _, _ => s

/-! ## Prompt fetch and 404 handling (`App.js`) -/

/-- The slice of `PromptApp` state touched by `fetchPromptById`, plus
the current route (as the string passed to `navigate`) and a counter
of issued GET requests. -/
structure AppState where
  selectedPromptId : Option Nat
  showNewForm : Bool
  error : Option String
  route : String
  fetches : Nat
deriving DecidableEq, Repr

/-- Outcome of the GET for a specific prompt: the prompt, or an HTTP
failure with optional status code and detail message. -/
inductive FetchOutcome where
  | ok (promptId : Nat)
  | err (status : Option Nat) (detail : String)
deriving DecidableEq, Repr

/-- `fetchPromptById` from `App.js` (lines 111-137): issue one GET; on
success select the prompt and clear the error; on failure set the
error message, and if the status is 404 navigate to the selected
project's root (`/{projectId}` when a specific project is selected)
or home (`/`).  No retry is performed. -/
def fetchPromptById (selectedProjectId : Option Nat) (outcome : FetchOutcome)
    (s : AppState) : AppState :=
  let s0 := { s with fetches := s.fetches + 1 }
  match outcome with
  | .ok p => { s0 with selectedPromptId := some p, showNewForm := false, error := none }
  | .err status detail =>
    let s1 := { s0 with error := some ("Failed to fetch prompt: " ++ detail) }
    if status = some 404 then
      match selectedProjectId with
      | some pid =>
        if pid ≠ 0 then { s1 with route := "/" ++ toString pid }
        else { s1 with route := "/" }
      | none => { s1 with route := "/" }
    else s1

/-! ## Lemmas about word splitting and trimming -/

theorem splitWsAux_all_space (sp : List Char) (acc : List Char)
    (h : ∀ c ∈ sp, jsIsSpace c = true) :
    splitWsAux sp acc = splitWsAux [] acc := by
  induction sp generalizing acc with
  | nil => rfl
  | cons c cs ih =>
    have hc : jsIsSpace c = true := h c (List.mem_cons_self c cs)
    have hcs : ∀ x ∈ cs, jsIsSpace x = true := fun x hx => h x (List.mem_cons_of_mem c hx)
    by_cases ha : acc = []
    · subst ha
      simpa [splitWsAux, hc] using ih [] hcs
    · have := ih [] hcs
      simp [splitWsAux, hc, ha, this]

theorem splitWsAux_append_space (l sp : List Char) (acc : List Char)
    (h : ∀ c ∈ sp, jsIsSpace c = true) :
    splitWsAux (l ++ sp) acc = splitWsAux l acc := by
  induction l generalizing acc with
  | nil => simpa using splitWsAux_all_space sp acc h
  | cons c cs ih =>
    by_cases hc : jsIsSpace c <;> by_cases ha : acc = [] <;>
      simp [splitWsAux, hc, ha, ih]

theorem splitWs_dropWhile_space (l : List Char) :
    splitWs (l.dropWhile jsIsSpace) = splitWs l := by
  induction l with
  | nil => rfl
  | cons c cs ih =>
    by_cases hc : jsIsSpace c
    · simpa [splitWs, List.dropWhile_cons, hc, splitWsAux] using ih
    · simp [List.dropWhile_cons, hc]

theorem splitWs_trimChars (l : List Char) :
    splitWs (trimChars l) = splitWs l := by
  unfold trimChars
  set m := l.dropWhile jsIsSpace with hm
  have hdecomp : (m.reverse.dropWhile jsIsSpace).reverse
      ++ (m.reverse.takeWhile jsIsSpace).reverse = m := by
    rw [← List.reverse_append, List.takeWhile_append_dropWhile, List.reverse_reverse]
  have hsp : ∀ c ∈ (m.reverse.takeWhile jsIsSpace).reverse, jsIsSpace c = true := by
    intro c hc
    rw [List.mem_reverse] at hc
    exact List.mem_takeWhile_imp hc
  calc splitWs ((m.reverse.dropWhile jsIsSpace).reverse)
      = splitWsAux ((m.reverse.dropWhile jsIsSpace).reverse
          ++ (m.reverse.takeWhile jsIsSpace).reverse) [] :=
        (splitWsAux_append_space _ _ _ hsp).symm
    _ = splitWs m := by rw [hdecomp]; rfl
    _ = splitWs l := splitWs_dropWhile_space l

/-! ## Lemmas about the whiteboard machine -/

theorem wbFireTyping_fields (t : Nat) (s : WBState) :
    (wbFireTyping t s).saves = s.saves ∧
    (wbFireTyping t s).lastSavedContent = s.lastSavedContent ∧
    (wbFireTyping t s).projectSelected = s.projectSelected ∧
    (wbFireTyping t s).autoSaveTimer = s.autoSaveTimer := by
  unfold wbFireTyping
  cases h : s.typingTimer with
  | none => exact ⟨rfl, rfl, rfl, rfl⟩
  | some d => by_cases hd : d ≤ t <;> simp [hd]

theorem wbFireDue_not_due (ok : Bool) (t d : Nat) (c : String) (s : WBState)
    (h : s.autoSaveTimer = some (d, c)) (hlt : t < d) :
    wbFireDue ok t s = wbFireTyping t s := by
  unfold wbFireDue
  have h2 : (wbFireTyping t s).autoSaveTimer = some (d, c) := by
    rw [(wbFireTyping_fields t s).2.2.2, h]
  simp only [h2]
  rw [if_neg (by omega)]

theorem wbRunEdits_pending (ok : Bool) :
    ∀ (es : List (Nat × String)) (s : WBState) (t : Nat) (c : String),
      s.autoSaveTimer = some (t + 2000, c) →
      stepOk t es = true →
      (wbRunEdits ok s es).saves = s.saves ∧
      (wbRunEdits ok s es).lastSavedContent = s.lastSavedContent ∧
      (wbRunEdits ok s es).projectSelected = s.projectSelected ∧
      (wbRunEdits ok s es).autoSaveTimer
        = some ((es.getLastD (t, c)).1 + 2000, (es.getLastD (t, c)).2) := by
  intro es
  induction es with
  | nil =>
    intro s t c hA _
    exact ⟨rfl, rfl, rfl, by simpa [wbRunEdits] using hA⟩
  | cons e rest ih =>
    obtain ⟨t2, c2⟩ := e
    intro s t c hA hstep
    simp only [stepOk, Bool.and_eq_true, decide_eq_true_eq] at hstep
    obtain ⟨⟨h1, h2⟩, h3⟩ := hstep
    rw [wbRunEdits]
    have hfd : wbFireDue ok t2 s = wbFireTyping t2 s :=
      wbFireDue_not_due ok t2 (t + 2000) c s hA (by omega)
    have hty := wbFireTyping_fields t2 s
    set s2 := wbHandleContentChange t2 (wbFireDue ok t2 s) c2 with hs2
    have h2saves : s2.saves = s.saves := by rw [hs2, hfd]; exact hty.1
    have h2last : s2.lastSavedContent = s.lastSavedContent := by rw [hs2, hfd]; exact hty.2.1
    have h2proj : s2.projectSelected = s.projectSelected := by rw [hs2, hfd]; exact hty.2.2.1
    have h2auto : s2.autoSaveTimer = some (t2 + 2000, c2) := rfl
    obtain ⟨r1, r2, r3, r4⟩ := ih s2 t2 c2 h2auto h3
    refine ⟨by rw [r1, h2saves], by rw [r2, h2last], by rw [r3, h2proj], ?_⟩
    rw [r4, List.getLastD_cons]

/-! ## Claim theorems -/

/-- Helper for C1, whiteboard side: for a sequence of edits to the
bound whiteboard in which consecutive edits are separated by less
than the 2000 ms debounce delay, at most one persist call is issued,
after the last edit: none when the final content equals the last
server-confirmed content, and exactly one, carrying the final
content, otherwise; no intermediate content is ever persisted. -/
theorem wb_debounce_run_saves (ok : Bool) (s : WBState) (t0 T : Nat)
    (c0 : String) (es : List (Nat × String))
    (hp : s.projectSelected = true) (ht : s.autoSaveTimer = none) (hs : s.saves = [])
    (hstep : stepOk t0 es = true)
    (hT : (es.getLastD (t0, c0)).1 + 2000 ≤ T) :
    (wbFireDue ok T (wbRunEdits ok s ((t0, c0) :: es))).saves
      = if (es.getLastD (t0, c0)).2 = s.lastSavedContent then []
        else [(es.getLastD (t0, c0)).2] := by
  rw [wbRunEdits]
  have hfd0 : wbFireDue ok t0 s = wbFireTyping t0 s := by
    unfold wbFireDue
    have h2 : (wbFireTyping t0 s).autoSaveTimer = none := by
      rw [(wbFireTyping_fields t0 s).2.2.2, ht]
    simp [h2]
  have hty0 := wbFireTyping_fields t0 s
  set s1 := wbHandleContentChange t0 (wbFireDue ok t0 s) c0 with hs1
  have h1saves : s1.saves = s.saves := by rw [hs1, hfd0]; exact hty0.1
  have h1last : s1.lastSavedContent = s.lastSavedContent := by rw [hs1, hfd0]; exact hty0.2.1
  have h1proj : s1.projectSelected = s.projectSelected := by rw [hs1, hfd0]; exact hty0.2.2.1
  have h1auto : s1.autoSaveTimer = some (t0 + 2000, c0) := rfl
  obtain ⟨r1, r2, r3, r4⟩ := wbRunEdits_pending ok es s1 t0 c0 h1auto hstep
  set s2 := wbRunEdits ok s1 es with hrun
  unfold wbFireDue
  have hty2 := wbFireTyping_fields T s2
  have h2auto : (wbFireTyping T s2).autoSaveTimer
      = some ((es.getLastD (t0, c0)).1 + 2000, (es.getLastD (t0, c0)).2) := by
    rw [hty2.2.2.2, r4]
  simp only [h2auto]
  rw [if_pos hT]
  unfold wbTriggerAutoSave
  have hproj : (wbFireTyping T s2).projectSelected = true := by
    rw [hty2.2.2.1, r3, h1proj, hp]
  have hlast : (wbFireTyping T s2).lastSavedContent = s.lastSavedContent := by
    rw [hty2.2.1, r2, h1last]
  have hsaves : (wbFireTyping T s2).saves = [] := by
    rw [hty2.1, r1, h1saves, hs]
  by_cases hc : (es.getLastD (t0, c0)).2 = s.lastSavedContent
  · rw [if_pos, if_pos hc]
    · exact hsaves
    · simp only [List.getLastD_eq_getLast?] at hc
      simp [hproj, hlast, hc]
  · rw [if_neg, if_neg hc]
    · cases ok <;> simp [hsaves]
    · simp only [List.getLastD_eq_getLast?] at hc
      simp [hproj, hlast, hc]

/-- A `pfTimerFire` with no pending timeout is the identity. -/
theorem pfTimerFire_none (t : Nat) (s : PFState) (h : s.timer = none) :
    pfTimerFire t s = s := by
  unfold pfTimerFire
  rw [h]

/-- A `pfTimerFire` before the pending deadline is the identity. -/
theorem pfTimerFire_not_due (t d : Nat) (p : FormData) (s : PFState)
    (h : s.timer = some (d, p)) (hlt : t < d) :
    pfTimerFire t s = s := by
  unfold pfTimerFire
  rw [h]
  exact if_neg (by omega)

/-- An edit event touches only `formData`, `hasUnsavedChanges` and the
debounce timer, which it re-arms exactly when the new data differs
from the snapshot. -/
theorem pfEdit_fields (t : Nat) (fd : FormData) (s : PFState) :
    (pfEdit t fd s).saves = s.saves
    ∧ (pfEdit t fd s).boundId = s.boundId
    ∧ (pfEdit t fd s).snapshot = s.snapshot
    ∧ (pfEdit t fd s).timer
        = (if hasFormChanged s.snapFields fd then some (t + 2000, fd) else none) := by
  unfold pfEdit
  by_cases h : hasFormChanged s.snapFields fd <;> simp [h]

/-- During a run of edit events with gaps under 2000 ms, no prompt
debounce timeout ever fires: the saves log, bound prompt and snapshot
are untouched and the timer reflects the last edit. -/
theorem pfRunEdits_pending :
    ∀ (es : List (Nat × FormData)) (s : PFState) (t : Nat) (fd : FormData),
      s.timer = (if hasFormChanged s.snapFields fd then some (t + 2000, fd) else none) →
      stepOk t es = true →
      (pfRunEdits s es).saves = s.saves ∧
      (pfRunEdits s es).boundId = s.boundId ∧
      (pfRunEdits s es).snapshot = s.snapshot ∧
      (pfRunEdits s es).timer
        = (if hasFormChanged s.snapFields (es.getLastD (t, fd)).2
           then some ((es.getLastD (t, fd)).1 + 2000, (es.getLastD (t, fd)).2) else none) := by
  intro es
  induction es with
  | nil =>
    intro s t fd hA _
    exact ⟨rfl, rfl, rfl, hA⟩
  | cons e rest ih =>
    obtain ⟨t2, fd2⟩ := e
    intro s t fd hA hstep
    simp only [stepOk, Bool.and_eq_true, decide_eq_true_eq] at hstep
    obtain ⟨⟨h1, h2⟩, h3⟩ := hstep
    rw [pfRunEdits]
    have hfire : pfTimerFire t2 s = s := by
      by_cases hc : hasFormChanged s.snapFields fd
      · exact pfTimerFire_not_due t2 (t + 2000) fd s (by rw [hA, if_pos hc]) (by omega)
      · exact pfTimerFire_none t2 s (by rw [hA, if_neg hc])
    rw [hfire]
    obtain ⟨e1, e2, e3, e4⟩ := pfEdit_fields t2 fd2 s
    have hsnap : (pfEdit t2 fd2 s).snapFields = s.snapFields := by
      unfold PFState.snapFields
      rw [e3]
    obtain ⟨r1, r2, r3, r4⟩ := ih (pfEdit t2 fd2 s) t2 fd2 (by rw [e4, hsnap]) h3
    refine ⟨by rw [r1, e1], by rw [r2, e2], by rw [r3, e3], ?_⟩
    rw [r4, hsnap, List.getLastD_cons]

/-- Helper for C1, prompt-editor side: for edit events on a form bound
to an existing prompt, with gaps under 2000 ms and a final field-set
whose trimmed name is non-blank, the saves issued once the debounce
fires are exactly one request with the final field-set if it differs
from the snapshot, and none otherwise. -/
theorem pf_debounce_run_saves (s : PFState) (pid t0 T : Nat) (fd0 : FormData)
    (es : List (Nat × FormData))
    (hb : s.boundId = some pid) (ht : s.timer = none) (hs : s.saves = [])
    (hstep : stepOk t0 es = true)
    (hT : (es.getLastD (t0, fd0)).1 + 2000 ≤ T)
    (hname : jsTrim (es.getLastD (t0, fd0)).2.name ≠ "") :
    (pfTimerFire T (pfRunEdits s ((t0, fd0) :: es))).saves
      = if hasFormChanged s.snapFields (es.getLastD (t0, fd0)).2
        then [(pid, (es.getLastD (t0, fd0)).2)] else [] := by
  rw [pfRunEdits, pfTimerFire_none t0 s ht]
  obtain ⟨e1, e2, e3, e4⟩ := pfEdit_fields t0 fd0 s
  have hsnap : (pfEdit t0 fd0 s).snapFields = s.snapFields := by
    unfold PFState.snapFields
    rw [e3]
  obtain ⟨r1, r2, r3, r4⟩ := pfRunEdits_pending es (pfEdit t0 fd0 s) t0 fd0
    (by rw [e4, hsnap]) hstep
  set r := pfRunEdits (pfEdit t0 fd0 s) es with hr
  have hrsaves : r.saves = [] := by rw [r1, e1, hs]
  have hrbound : r.boundId = some pid := by rw [r2, e2, hb]
  rw [hsnap] at r4
  by_cases hc : hasFormChanged s.snapFields (es.getLastD (t0, fd0)).2
  · rw [if_pos hc]
    rw [if_pos hc] at r4
    unfold pfTimerFire
    rw [r4]
    show (if (es.getLastD (t0, fd0)).1 + 2000 ≤ T then
            pfTriggerAutoSaveStart T { r with timer := none } (es.getLastD (t0, fd0)).2
          else r).saves = [(pid, (es.getLastD (t0, fd0)).2)]
    rw [if_pos hT]
    have hname2 := hname
    simp only [List.getLastD_eq_getLast?] at hname2
    simp [pfTriggerAutoSaveStart, hrbound, hrsaves, hname2]
  · rw [if_neg hc]
    rw [if_neg hc] at r4
    rw [pfTimerFire_none T r r4, hrsaves]

/-- C1 (amended): for every sequence of edit events on one bound
entity with consecutive edits separated by less than the 2000 ms
debounce delay, no request carrying an intermediate field-set is ever
issued, and once the surviving timer fires: on the whiteboard, at
most one persist is issued, carrying the final content, exactly one
iff it differs from the last server-confirmed content; on the prompt
editor, provided the final field-set's name is non-blank, exactly one
persist carrying the final field-set is issued iff it differs from
the server-confirmed snapshot.  (When the final name is blank and the
content non-blank, the payload instead carries the auto-generated
name and the name write-back re-arms the debounce, issuing a second
identical save — see the counterexample.) -/
theorem debounced_edits_single_final_save :
    (∀ (ok : Bool) (s : WBState) (t0 T : Nat) (c0 : String) (es : List (Nat × String)),
      s.projectSelected = true → s.autoSaveTimer = none → s.saves = [] →
      stepOk t0 es = true → (es.getLastD (t0, c0)).1 + 2000 ≤ T →
      (wbFireDue ok T (wbRunEdits ok s ((t0, c0) :: es))).saves
        = if (es.getLastD (t0, c0)).2 = s.lastSavedContent then []
          else [(es.getLastD (t0, c0)).2])
    ∧ (∀ (s : PFState) (pid t0 T : Nat) (fd0 : FormData) (es : List (Nat × FormData)),
      s.boundId = some pid → s.timer = none → s.saves = [] →
      stepOk t0 es = true → (es.getLastD (t0, fd0)).1 + 2000 ≤ T →
      jsTrim (es.getLastD (t0, fd0)).2.name ≠ "" →
      (pfTimerFire T (pfRunEdits s ((t0, fd0) :: es))).saves
        = if hasFormChanged s.snapFields (es.getLastD (t0, fd0)).2
          then [(pid, (es.getLastD (t0, fd0)).2)] else []) :=
  ⟨fun ok s t0 T c0 es hp ht hs hstep hT =>
      wb_debounce_run_saves ok s t0 T c0 es hp ht hs hstep hT,
   fun s pid t0 T fd0 es hb ht hs hstep hT hname =>
      pf_debounce_run_saves s pid t0 T fd0 es hb ht hs hstep hT hname⟩

/-- C1 witness: typing "a", "ab", "abc" at 0, 500, 1000 ms on a clean
whiteboard produces exactly one save, with content "abc"; and two
content edits under the debounce delay on an existing prompt with a
kept name produce exactly one save, carrying the final field-set. -/
theorem debounced_edits_single_final_save_witness :
    (wbFireDue true 3000 (wbRunEdits true ⟨true, "", "", false, false, none, none, []⟩
        [(0, "a"), (500, "ab"), (1000, "abc")])).saves = ["abc"]
    ∧ (pfTimerFire 3000 (pfRunEdits
        ⟨some 1, ⟨"Alpha", "draft", "hi", ""⟩,
         some (some 1, ⟨"Alpha", "draft", "hi", ""⟩), false, none, none, []⟩
        [(0, ⟨"Alpha", "draft", "h", ""⟩),
         (1000, ⟨"Alpha", "draft", "hi there", ""⟩)])).saves
      = [(1, ⟨"Alpha", "draft", "hi there", ""⟩)] := by
  constructor
  · have h := debounced_edits_single_final_save.1 true
        ⟨true, "", "", false, false, none, none, []⟩
        0 3000 "a" [(500, "ab"), (1000, "abc")] rfl rfl rfl (by decide) (by decide)
    rw [if_neg (by decide)] at h
    exact h
  · have h := debounced_edits_single_final_save.2
        ⟨some 1, ⟨"Alpha", "draft", "hi", ""⟩,
         some (some 1, ⟨"Alpha", "draft", "hi", ""⟩), false, none, none, []⟩
        1 0 3000 ⟨"Alpha", "draft", "h", ""⟩
        [(1000, ⟨"Alpha", "draft", "hi there", ""⟩)]
        rfl rfl rfl (by decide) (by decide) (by decide)
    rw [if_pos (by decide)] at h
    exact h

/-- C1 counterexample, both failure modes of the original claim: on
the whiteboard, typing "a" at 0 ms and reverting to "" at 1000 ms
(gaps under 2000 ms) issues no save at all when the timer fires,
refuting "exactly one"; on the prompt editor, a single edit clearing
the name of an existing prompt makes the debounce fire into the
autoname branch, whose `setFormData` write-back re-arms the debounce,
issuing two persist calls, neither of which carries the final
field-set (both carry the auto-generated name "hi" instead of the
edited empty name). -/
theorem debounce_single_save_refuted :
    (wbFireDue true 3000 (wbRunEdits true ⟨true, "", "", false, false, none, none, []⟩
        [(0, "a"), (1000, "")])).saves = []
    ∧ (pfRun ⟨some 1, ⟨"Alpha", "draft", "hi", ""⟩,
          some (some 1, ⟨"Alpha", "draft", "hi", ""⟩), false, none, none, []⟩
        [.edit 0 ⟨"", "draft", "hi", ""⟩, .timerFire 2000, .saveComplete true,
         .timerFire 4000]).saves
      = [(1, ⟨"hi", "draft", "hi", ""⟩), (1, ⟨"hi", "draft", "hi", ""⟩)]
    ∧ (⟨"hi", "draft", "hi", ""⟩ : FormData) ≠ ⟨"", "draft", "hi", ""⟩ := by decide

/-- Helper for C6, whiteboard side: persisting content equal to the
last server-confirmed content is a no-op — `triggerAutoSave` (the
timer-fire path) returns without issuing a network call or touching
the state, and so does the manual-save path when no timeout is
pending. -/
theorem wb_unchanged_save_noop (ok : Bool) (s : WBState)
    (h : s.content = s.lastSavedContent) (ht : s.autoSaveTimer = none) :
    wbTriggerAutoSave ok s s.content = s ∧ wbHandleManualSave ok s = s := by
  have htrig : wbTriggerAutoSave ok s s.content = s := by
    unfold wbTriggerAutoSave
    rw [if_pos (by simp [h])]
  refine ⟨htrig, ?_⟩
  unfold wbHandleManualSave
  by_cases hp : s.projectSelected
  · have hst : ({ s with autoSaveTimer := none } : WBState) = s := by
      cases s
      simp_all
    rw [if_neg (by simp [hp]), hst, htrig]
  · rw [if_pos (by simp [hp])]

/-- Helper for C6, prompt-editor side: an edit event whose field-set
equals the snapshot arms no debounce timer, so a subsequent timer
fire is the identity and no request is issued on that path. -/
theorem pf_unchanged_edit_noop (s : PFState) (t T : Nat) (fd : FormData)
    (h : hasFormChanged s.snapFields fd = false) :
    (pfEdit t fd s).timer = none
    ∧ (pfEdit t fd s).saves = s.saves
    ∧ pfTimerFire T (pfEdit t fd s) = pfEdit t fd s := by
  obtain ⟨e1, _, _, e4⟩ := pfEdit_fields t fd s
  rw [h] at e4
  simp only [if_neg (by simp : ¬(false = true))] at e4
  exact ⟨e4, e1, pfTimerFire_none T (pfEdit t fd s) e4⟩

/-- C6 (amended): on the whiteboard, triggering a persist of content
value-equal to the last server-confirmed content — via timer fire or
manual save — is a no-op: no network call, state unchanged.  In the
prompt editor the debounce path is likewise a no-op, because an edit
leaving the field-set equal to the snapshot never arms a timer, so no
timer fire can issue a request; the manual-save trigger, however, is
not guarded (see the counterexample). -/
theorem unchanged_save_noop :
    (∀ (ok : Bool) (s : WBState),
      s.content = s.lastSavedContent → s.autoSaveTimer = none →
      wbTriggerAutoSave ok s s.content = s ∧ wbHandleManualSave ok s = s)
    ∧ (∀ (s : PFState) (t T : Nat) (fd : FormData),
      hasFormChanged s.snapFields fd = false →
      (pfEdit t fd s).timer = none
      ∧ (pfEdit t fd s).saves = s.saves
      ∧ pfTimerFire T (pfEdit t fd s) = pfEdit t fd s) :=
  ⟨fun ok s h ht => wb_unchanged_save_noop ok s h ht,
   fun s t T fd h => pf_unchanged_edit_noop s t T fd h⟩

/-- C6 witness: concrete clean whiteboard state on which both persist
paths are the identity, and a concrete unchanged prompt edit that
arms no timer. -/
theorem unchanged_save_noop_witness :
    wbTriggerAutoSave true ⟨true, "x", "x", false, false, none, none, []⟩ "x"
        = ⟨true, "x", "x", false, false, none, none, []⟩
    ∧ wbHandleManualSave true ⟨true, "x", "x", false, false, none, none, []⟩
        = ⟨true, "x", "x", false, false, none, none, []⟩
    ∧ (pfEdit 0 ⟨"Alpha", "draft", "hi", ""⟩
        ⟨some 1, ⟨"Alpha", "draft", "hi", ""⟩,
         some (some 1, ⟨"Alpha", "draft", "hi", ""⟩), false, none, none, []⟩).timer
      = none :=
  ⟨(unchanged_save_noop.1 true ⟨true, "x", "x", false, false, none, none, []⟩ rfl rfl).1,
   (unchanged_save_noop.1 true ⟨true, "x", "x", false, false, none, none, []⟩ rfl rfl).2,
   (unchanged_save_noop.2
      ⟨some 1, ⟨"Alpha", "draft", "hi", ""⟩,
       some (some 1, ⟨"Alpha", "draft", "hi", ""⟩), false, none, none, []⟩
      0 0 ⟨"Alpha", "draft", "hi", ""⟩ (by decide)).1⟩

/-- C6 counterexample: in the prompt editor a manual save (Cmd+S) on a
clean existing prompt — field-set value-equal to the snapshot — still
issues a network call: `triggerAutoSave` has no unchanged-guard, so
the claim's "no network call is made" is false for the prompt
editor. -/
theorem unchanged_manual_save_still_calls :
    (pfCmdS 0 ⟨some 1, ⟨"Alpha", "draft", "hi", ""⟩,
        some (some 1, ⟨"Alpha", "draft", "hi", ""⟩), false, none, none, []⟩).saves
      = [(1, ⟨"Alpha", "draft", "hi", ""⟩)]
    ∧ hasFormChanged (some ⟨"Alpha", "draft", "hi", ""⟩)
        ⟨"Alpha", "draft", "hi", ""⟩ = false := by decide

/-- C4: one sync poll applies the fetched server value to the local
view exactly when a project is selected, the user is not typing (no
edit in the last 1000 ms), there are no unsaved local changes, and
the fetched value differs from the last-applied value; in particular
the local content is never overwritten while `hasUnsavedChanges` is
true. -/
theorem sync_poll_guard (s : WBState) (serverContent : String) :
    wbCheckForUpdates s serverContent
      = (if s.projectSelected = true ∧ s.isTyping = false ∧ s.hasUnsavedChanges = false
            ∧ serverContent ≠ s.lastSavedContent
         then { s with content := serverContent, lastSavedContent := serverContent }
         else s)
    ∧ (s.hasUnsavedChanges = true →
        (wbCheckForUpdates s serverContent).content = s.content) := by
  have hmain : wbCheckForUpdates s serverContent
      = (if s.projectSelected = true ∧ s.isTyping = false ∧ s.hasUnsavedChanges = false
            ∧ serverContent ≠ s.lastSavedContent
         then { s with content := serverContent, lastSavedContent := serverContent }
         else s) := by
    unfold wbCheckForUpdates
    by_cases hp : s.projectSelected <;> by_cases hty : s.isTyping <;>
      by_cases hu : s.hasUnsavedChanges <;>
      by_cases hne : serverContent = s.lastSavedContent <;>
      simp [hp, hty, hu, hne]
  refine ⟨hmain, fun hu => ?_⟩
  rw [hmain, if_neg (by simp [hu])]

/-- C4 witness: with unsaved local changes, a poll returning a
different server value leaves the local content untouched. -/
theorem sync_poll_guard_witness :
    (wbCheckForUpdates ⟨true, "local", "confirmed", true, false, none, none, []⟩
        "server").content = "local" :=
  (sync_poll_guard ⟨true, "local", "confirmed", true, false, none, none, []⟩ "server").2 rfl

/-- C2 (amended): switching the bound prompt cancels the pending
debounce timer (so a pending, unfired debounce for the old prompt
never persists), resets the snapshot and `hasUnsavedChanges` from the
new prompt's server state, issues no save, and — when no save is in
flight at the switch — no later request settlement alters the state.
(A save already in flight at the switch is not guarded; see the
counterexample.) -/
theorem switch_resets_and_drops_pending (s : PFState) (idB : Nat) (fdB : FormData)
    (ok : Bool) (h : s.inflight = none) :
    (pfSwitch idB fdB s).timer = none
    ∧ (pfSwitch idB fdB s).hasUnsavedChanges = false
    ∧ (pfSwitch idB fdB s).snapshot = some (some idB, fdB)
    ∧ (pfSwitch idB fdB s).saves = s.saves
    ∧ pfSaveComplete ok (pfSwitch idB fdB s) = pfSwitch idB fdB s := by
  refine ⟨rfl, rfl, rfl, rfl, ?_⟩
  unfold pfSaveComplete
  have hin : (pfSwitch idB fdB s).inflight = none := h
  simp [hin]

/-- C2 witness: a concrete switch away from a dirty prompt with a
pending timer and no in-flight save. -/
theorem switch_resets_and_drops_pending_witness :
    pfSaveComplete true (pfSwitch 2 ⟨"Beta", "draft", "bbb", ""⟩
        ⟨some 1, ⟨"Alpha", "draft", "edited", ""⟩,
         some (some 1, ⟨"Alpha", "draft", "orig", ""⟩), true,
         some (2000, ⟨"Alpha", "draft", "edited", ""⟩), none, []⟩)
      = pfSwitch 2 ⟨"Beta", "draft", "bbb", ""⟩
        ⟨some 1, ⟨"Alpha", "draft", "edited", ""⟩,
         some (some 1, ⟨"Alpha", "draft", "orig", ""⟩), true,
         some (2000, ⟨"Alpha", "draft", "edited", ""⟩), none, []⟩ :=
  (switch_resets_and_drops_pending
    ⟨some 1, ⟨"Alpha", "draft", "edited", ""⟩,
     some (some 1, ⟨"Alpha", "draft", "orig", ""⟩), true,
     some (2000, ⟨"Alpha", "draft", "edited", ""⟩), none, []⟩
    2 ⟨"Beta", "draft", "bbb", ""⟩ true rfl).2.2.2.2

/-- C2 counterexample: prompt A (id 1) is edited at 0 ms, its debounce
fires at 2000 ms putting a save for A in flight, the user switches to
prompt B (id 2) at that point, and A's save then succeeds: the
success continuation spreads A's payload over `initialDataRef`, so
B's snapshot ends up holding A's field-set — the claim that no
outcome of A's save is ever applied to B's snapshot is false. -/
theorem inflight_save_clobbers_new_snapshot :
    (pfRun ⟨some 1, ⟨"Alpha", "draft", "hello", ""⟩,
        some (some 1, ⟨"Alpha", "draft", "hello", ""⟩), false, none, none, []⟩
        [.edit 0 ⟨"Alpha", "draft", "hello world", ""⟩, .timerFire 2000,
         .switchTo 2 ⟨"Beta", "draft", "bbb", ""⟩, .saveComplete true]).snapshot
      = some (some 2, ⟨"Alpha", "draft", "hello world", ""⟩)
    ∧ (⟨"Alpha", "draft", "hello world", ""⟩ : FormData) ≠ ⟨"Beta", "draft", "bbb", ""⟩ := by
  decide

/-- C7: in `PromptForm.js` the Cmd+S handler does not cancel the
pending debounce timer.  On a dirty bound prompt, editing at 0 ms,
pressing Cmd+S at 1000 ms and letting the (still pending) timer fire
at 2000 ms issues the same save twice — contradicting the claim that
a manual save cancels the timer and performs exactly one persist
call.  (`ProjectWhiteboard.js` does cancel, with an explicit comment
about avoiding duplicate saves, so the prompt-editor behavior is a
slip.) -/
theorem cmds_does_not_cancel_timer :
    (pfRun ⟨some 1, ⟨"Alpha", "draft", "hello", ""⟩,
        some (some 1, ⟨"Alpha", "draft", "hello", ""⟩), false, none, none, []⟩
        [.edit 0 ⟨"Alpha", "draft", "hello world", ""⟩, .cmdS 1000,
         .saveComplete true, .timerFire 2000]).saves
      = [(1, ⟨"Alpha", "draft", "hello world", ""⟩),
         (1, ⟨"Alpha", "draft", "hello world", ""⟩)] := by decide

/-- C8 (amended): an edit event sets `hasUnsavedChanges` to the value
of `hasFormChanged`; for a new, unsaved prompt that is true iff the
trimmed name or the trimmed content is non-empty (status and
project_id are not consulted), and for an existing prompt iff the
field-set differs field-by-field from the last server-confirmed
state (with `""`/`"draft"` defaults for absent fields). -/
theorem edit_dirty_characterization (s : PFState) (t : Nat) (fd : FormData) :
    ((pfEdit t fd s).hasUnsavedChanges = hasFormChanged s.snapFields fd)
    ∧ (hasFormChanged none fd = true ↔ (jsTrim fd.name ≠ "" ∨ jsTrim fd.content ≠ ""))
    ∧ (∀ i : FormData, hasFormChanged (some i) fd = true ↔
        (fd.name ≠ jsOr i.name "" ∨ fd.status ≠ jsOr i.status "draft"
          ∨ fd.content ≠ jsOr i.content "" ∨ fd.project_id ≠ jsOr i.project_id "")) := by
  refine ⟨?_, ?_, ?_⟩
  · unfold pfEdit
    by_cases h : hasFormChanged s.snapFields fd <;> simp [h]
  · simp [hasFormChanged]
  · intro i
    simp [hasFormChanged]
    tauto

/-- C8 counterexample: on a new, unsaved prompt an edit that sets a
non-empty `project_id` (and leaves the non-empty default status
`"draft"`) does not set `hasUnsavedChanges`, although the claim's
"some field non-empty" condition holds. -/
theorem new_prompt_projectid_not_dirty :
    (pfEdit 0 ⟨"", "draft", "", "5"⟩
        ⟨none, ⟨"", "draft", "", ""⟩, none, false, none, none, []⟩).hasUnsavedChanges = false
    ∧ ("5" : String) ≠ "" ∧ ("draft" : String) ≠ "" := by decide

/-- C3: dragging item 1 of `[1,2,3,4]` onto item 3 (index 2) moves it
— yielding `[2,3,1,4]`, a single-element move, not a swap — and
issues exactly one reorder request carrying the full new id order; on
server failure the mirror reverts to the server-confirmed `[1,2,3,4]`
and the error is surfaced, with no second request. -/
theorem reorder_move_and_revert :
    (handleDragEnd true ⟨[1,2,3,4], [1,2,3,4], [], 0, 0⟩ (some 1) (some 3)).localPrompts
        = [2,3,1,4]
    ∧ (handleDragEnd true ⟨[1,2,3,4], [1,2,3,4], [], 0, 0⟩ (some 1) (some 3)).requests
        = [[2,3,1,4]]
    ∧ (handleDragEnd true ⟨[1,2,3,4], [1,2,3,4], [], 0, 0⟩ (some 1) (some 3)).refreshes = 1
    ∧ (handleDragEnd false ⟨[1,2,3,4], [1,2,3,4], [], 0, 0⟩ (some 1) (some 3)).localPrompts
        = [1,2,3,4]
    ∧ (handleDragEnd false ⟨[1,2,3,4], [1,2,3,4], [], 0, 0⟩ (some 1) (some 3)).requests
        = [[2,3,1,4]]
    ∧ (handleDragEnd false ⟨[1,2,3,4], [1,2,3,4], [], 0, 0⟩ (some 1) (some 3)).errorsLogged
        = 1 := by decide

/-- C10: a drag that ends on the dragged item itself, or without a
valid drop target, leaves the sidebar state unchanged and issues no
reorder request. -/
theorem dragend_self_or_no_target_noop (ok : Bool) (s : SBState) (x : Nat) (o : Option Nat) :
    handleDragEnd ok s (some x) (some x) = s
    ∧ handleDragEnd ok s none o = s
    ∧ handleDragEnd ok s (some x) none = s := by
  refine ⟨by simp [handleDragEnd], ?_, by simp [handleDragEnd]⟩
  cases o <;> simp [handleDragEnd]

/-- C9: a 404 on fetching a specific prompt sets the user-visible
error message and navigates to the selected project's root (or home
when no specific project is selected), issuing exactly one fetch (no
retry). -/
theorem fetch_404_redirects (spid : Option Nat) (s : AppState) (d : String) :
    (fetchPromptById spid (.err (some 404) d) s).error
        = some ("Failed to fetch prompt: " ++ d)
    ∧ (fetchPromptById spid (.err (some 404) d) s).fetches = s.fetches + 1
    ∧ (fetchPromptById spid (.err (some 404) d) s).route
        = (match spid with
           | some pid => if pid ≠ 0 then "/" ++ toString pid else "/"
           | none => "/") := by
  refine ⟨?_, ?_, ?_⟩
  · cases spid with
    | none => rfl
    | some pid => by_cases h : pid = 0 <;> simp [fetchPromptById, h]
  · cases spid with
    | none => rfl
    | some pid => by_cases h : pid = 0 <;> simp [fetchPromptById, h]
  · cases spid with
    | none => rfl
    | some pid => by_cases h : pid = 0 <;> simp [fetchPromptById, h]

/-- C5 (amended): the auto-generated name follows the spec's rule
amended in two points forced by the code — underscores count as word
characters (JavaScript `\w`) and the cleaned result is trimmed before
the length check; on the spec's own example the first six words give
"Explain quantum computing to a five", under 50 characters, so no
ellipsis is appended. -/
theorem autoname_matches_amended_rule :
    (∀ content : String, jsTrim content ≠ "" →
        generateAutoName content = specAutoNameAmended content)
    ∧ generateAutoName "Explain quantum computing to a five year old in simple terms"
        = "Explain quantum computing to a five"
    ∧ ("Explain quantum computing to a five" : String).length ≤ 50 := by
  refine ⟨?_, by decide, by decide⟩
  intro content h
  unfold generateAutoName specAutoNameAmended
  rw [if_neg h]
  show (let words := String.intercalate " "
          (((splitWs (trimChars content.toList)).take 6).map String.mk)
        let cleaned := jsTrim (String.mk (words.toList.filter keepWordChar))
        if cleaned.length > 50 then String.mk (cleaned.toList.take 47) ++ "..."
        else if cleaned = "" then "Untitled Prompt" else cleaned) = _
  rw [show splitWs (trimChars content.toList) = splitWs content.toList from
    splitWs_trimChars content.toList]

/-- C5 witness: the code and the amended rule agree on a concrete
non-blank content. -/
theorem autoname_matches_amended_rule_witness :
    generateAutoName "ab c" = specAutoNameAmended "ab c" :=
  autoname_matches_amended_rule.1 "ab c" (by decide)

/-- C5 counterexample: for content "a_b !" the code keeps the
underscore and trims, producing "a_b", while the claim's rule —
strip characters outside letters/digits/whitespace/hyphen, no final
trim — produces "ab " (underscore stripped, trailing space kept). -/
theorem autoname_differs_from_spec_rule :
    generateAutoName "a_b !" = "a_b"
    ∧ specAutoNameRule "a_b !" = "ab "
    ∧ ("a_b" : String) ≠ "ab " := by decide
